import Mathlib

/-!
Verification of the yavide `ClangIndexer` (src/core/services/indexer/clang_indexer.py)
against its natural-language specification.

The Python module is shallowly embedded below: pure helpers become Lean
functions, the sqlite connection becomes an explicit `DbConn` state
(committed rows vs. the pending, not-yet-committed transaction), and each
operation handler becomes a function producing the list of externally
visible effects (`Event`) it performs, in program order.  External
collaborators that are not part of the repository snapshot (the clang
parser wrapper and the `ASTNodeId` taxonomy) are modelled from the spec,
as marked in their doc comments.
-/

namespace Yavide

/-- Modelled from the spec: the fixed external symbol-kind taxonomy of
`services.parser.ast_node_identifier.ASTNodeId` (the file is not part of
the source snapshot).  Spec section 1 / section 6 list the taxonomy as the fixed
enumeration: function, method, class, struct, enum, enum-value, union,
typedef, local-variable, parameter, field, macro-definition,
macro-instantiation. -/
inductive ASTNodeId where
  | FunctionId
  | MethodId
  | ClassId
  | StructId
  | EnumId
  | EnumValueId
  | UnionId
  | TypedefId
  | LocalVariableId
  | FunctionParameterId
  | FieldId
  | MacroDefinitionId
  | MacroInstantiationId
deriving DecidableEq, Repr

/-- Modelled from the spec: the visitor result values of
`services.parser.clang_parser.ChildVisitResult` (file not in the snapshot);
the visitor returns either continue-to-sibling or recurse-into-children. -/
inductive ChildVisitResult where
  | BREAK
  | CONTINUE
  | RECURSE
deriving DecidableEq, Repr

/-- One row of the sqlite `symbol` table:
`(filename text, usr text, line integer, column integer, type integer)`
with `PRIMARY KEY(filename, usr, line, column)` (clang_indexer.py line 116). -/
structure SymbolRow where
  filename : String
  usr : String
  line : Nat
  column : Nat
  type : Nat
deriving DecidableEq, Repr

/-- The primary key of a `symbol` row: `(filename, usr, line, column)`. -/
def rowKey (r : SymbolRow) : String × String × Nat × Nat :=
  (r.filename, r.usr, r.line, r.column)

/-- `slice_it(iterable, n, padvalue=None)` (clang_indexer.py lines 17-18):
`izip_longest(*[iter(iterable)]*n, fillvalue=padvalue)` groups the list into
consecutive chunks of exactly `n` elements, padding the last chunk with the
pad value.  With `n = 0` it builds `izip_longest()` of zero iterators, which
yields nothing at all. -/
def sliceIt : List α → Nat → List (List (Option α))
  | _, 0 => []
  | [], _ + 1 => []
  | a :: l, n + 1 =>
      (((a :: l).take (n + 1)).map some
        ++ List.replicate ((n + 1) - (a :: l).length) none)
      :: sliceIt ((a :: l).drop (n + 1)) (n + 1)
termination_by l _ => l.length
decreasing_by
  simp
  omega

/-- `os.path.join(a, b)`: an absolute second component wins; otherwise the
components are joined, adding a separator unless one is already there. -/
def osPathJoin (a b : String) : String :=
  if b.data.head? = some '/' then b
  else if a = "" ∨ a.data.getLast? = some '/' then a ++ b
  else a ++ "/" ++ b

/-- `self.indexer_db_name = 'indexer.db'` (clang_indexer.py line 25). -/
def indexerDbName : String := "indexer.db"

/-- The sqlite error hierarchy as far as the indexer observes it. -/
inductive SqliteError where
  | integrityError
deriving DecidableEq, Repr

/-- Python-level exceptions the embedded handlers can raise. -/
inductive PyError where
  | typeError
deriving DecidableEq, Repr

/-- One sqlite connection, as Python sqlite3 exposes it: rows already made
durable by `commit`, plus the pending inserts of the current implicit
transaction.  Closing (or exiting the process) without `commit` rolls the
pending inserts back. -/
structure DbConn where
  committed : List SymbolRow
  pending : List SymbolRow
deriving DecidableEq, Repr

/-- All rows the connection currently sees (durable plus uncommitted). -/
def DbConn.allRows (c : DbConn) : List SymbolRow :=
  c.committed ++ c.pending

/-- `INSERT INTO symbol VALUES (?, ?, ?, ?, ?)`: sqlite raises
`IntegrityError` on a primary-key collision, otherwise appends the row to
the current transaction. -/
def dbInsertSymbol (c : DbConn) (r : SymbolRow) : Except SqliteError DbConn :=
  if c.allRows.any (fun q => rowKey q = rowKey r) then
    Except.error SqliteError.integrityError
  else
    Except.ok { c with pending := c.pending ++ [r] }

/-- `connection.commit()`: makes the pending inserts durable. -/
def dbCommit (c : DbConn) : DbConn :=
  { committed := c.committed ++ c.pending, pending := [] }

/-- Externally visible effects of the handlers, in program order. -/
inductive Event where
  | connectEv (path : String)
  | createTableEv (tableName : String)
  | writeTypeEv (typeId : Nat) (typeName : String)
  | writeEv (row : SymbolRow)
  | parseEv (contentsFilename originalFilename : String)
  | spawnEv (slice : List (Option String))
  | joinEv
  | commitEv
  | logEv
  | callbackEv (opId : Int) (args : List String)
deriving DecidableEq, Repr

/-- A sqlite connection together with the trace of effects performed on and
around it. -/
structure DbTrace where
  conn : DbConn
  events : List Event
deriving DecidableEq, Repr

/-- The body of the `try`/`except sqlite3.IntegrityError: pass` around each
insert (clang_indexer.py lines 219-231): a successful insert records the
row, a primary-key collision is absorbed silently. -/
def tryInsertSymbol (c : DbConn) (r : SymbolRow) : DbConn :=
  match dbInsertSymbol c r with
  | Except.ok c' => c'
  | Except.error _ => c

/-- `tryInsertSymbol` lifted to the traced connection: a successful insert
additionally emits a store-write event, an absorbed collision emits
nothing. -/
def tryInsertTr (s : DbTrace) (r : SymbolRow) : DbTrace :=
  match dbInsertSymbol s.conn r with
  | Except.ok c' => { conn := c', events := s.events ++ [Event.writeEv r] }
  | Except.error _ => s

/-- An AST node as the visitor consumes it: `location.file` (possibly null,
holding the file name when present), the USR of the referenced declaration
when `ast_node.referenced` is non-null, the node's own USR, the classifier
tag, the 1-based position, and the child nodes. -/
inductive ASTNode where
  | mk (locationFile : Option String) (referencedUsr : Option String)
       (ownUsr : String) (kind : ASTNodeId) (line : Nat) (column : Nat)
       (children : List ASTNode)

def ASTNode.locationFile : ASTNode → Option String
  | ASTNode.mk f _ _ _ _ _ _ => f

def ASTNode.referencedUsr : ASTNode → Option String
  | ASTNode.mk _ r _ _ _ _ _ => r

def ASTNode.ownUsr : ASTNode → String
  | ASTNode.mk _ _ u _ _ _ _ => u

def ASTNode.kind : ASTNode → ASTNodeId
  | ASTNode.mk _ _ _ k _ _ _ => k

def ASTNode.line : ASTNode → Nat
  | ASTNode.mk _ _ _ _ l _ _ => l

def ASTNode.column : ASTNode → Nat
  | ASTNode.mk _ _ _ _ _ c _ => c

def ASTNode.children : ASTNode → List ASTNode
  | ASTNode.mk _ _ _ _ _ _ cs => cs

/-- A parsed translation unit: its `spelling` (primary file name) and root
cursor. -/
structure TUnit where
  spelling : String
  cursor : ASTNode

/-- The identity stored and queried for a node:
`x.referenced.get_usr() if x.referenced else x.get_usr()`
(clang_indexer.py line 216 and, identically, line 187). -/
def symbolUsr (referencedUsr : Option String) (ownUsr : String) : String :=
  match referencedUsr with
  | some u => u
  | none => ownUsr

/-- The traversal visitor of `__index_single_file` (clang_indexer.py lines
213-233): nodes outside the unit's primary file are skipped (continue to
sibling); nodes in the primary file are classified into one of the four
storage buckets, inserted (collisions absorbed), and recursed into. -/
def visitor (tunitSpelling : String) (astNode : ASTNode) (s : DbTrace) :
    ChildVisitResult × DbTrace :=
  if astNode.locationFile = some tunitSpelling then
    let usr := symbolUsr astNode.referencedUsr astNode.ownUsr
    let line := astNode.line
    let column := astNode.column
    let s' :=
      if astNode.kind ∈ [ASTNodeId.FunctionId, ASTNodeId.MethodId] then
        tryInsertTr s ⟨tunitSpelling, usr, line, column, 1⟩
      else if astNode.kind ∈ [ASTNodeId.ClassId, ASTNodeId.StructId,
          ASTNodeId.EnumId, ASTNodeId.EnumValueId, ASTNodeId.UnionId,
          ASTNodeId.TypedefId] then
        tryInsertTr s ⟨tunitSpelling, usr, line, column, 3⟩
      else if astNode.kind ∈ [ASTNodeId.LocalVariableId,
          ASTNodeId.FunctionParameterId, ASTNodeId.FieldId] then
        tryInsertTr s ⟨tunitSpelling, usr, line, column, 2⟩
      else if astNode.kind ∈ [ASTNodeId.MacroDefinitionId,
          ASTNodeId.MacroInstantiationId] then
        tryInsertTr s ⟨tunitSpelling, usr, line, column, 4⟩
      else s
    (ChildVisitResult.RECURSE, s')
  else
    (ChildVisitResult.CONTINUE, s)

theorem ASTNode.sizeOf_children_lt (n : ASTNode) : sizeOf n.children < sizeOf n := by
  cases n with
  | mk f r u k l c cs => simp [ASTNode.children]

/-- Runs the visitor over a sibling list, descending where it returns
`RECURSE`. -/
def traverseChildren (v : ASTNode → DbTrace → ChildVisitResult × DbTrace) :
    List ASTNode → DbTrace → DbTrace
  | [], s => s
  | n :: rest, s =>
      let res := v n s
      let s2 :=
        match res.fst with
        | ChildVisitResult.RECURSE => traverseChildren v n.children res.snd
        | _ => res.snd
      traverseChildren v rest s2
termination_by ns _ => sizeOf ns
decreasing_by
  · have h := ASTNode.sizeOf_children_lt n
    simp
    omega
  · simp

/-- Modelled from the spec: `parser.traverse(root, context, visitor)`
(clang_parser is not in the snapshot) performs the depth-first clang-style
child traversal: the visitor runs on each child of the root cursor;
`RECURSE` descends into that child's children, `CONTINUE` skips to the next
sibling. -/
def traverse (v : ASTNode → DbTrace → ChildVisitResult × DbTrace)
    (node : ASTNode) (s : DbTrace) : DbTrace :=
  traverseChildren v node.children s

/-- The external parser (`self.parser.parse(contents_filename,
original_filename, compiler_args, proj_root_directory)`), abstracted as a
function; `none` means the parse failed to produce a unit. -/
abbrev ParseFun :=
  String → String → String → String → Option TUnit

/-- `__index_single_file(proj_root_directory, contents_filename,
original_filename, compiler_args, db)` (clang_indexer.py lines 212-251):
parse, then (when a unit was produced) traverse it with `visitor`.  Note
that the commit of line 249 is commented out in the source, so this
function performs no commit. -/
def indexSingleFile (parse : ParseFun)
    (projRootDirectory contentsFilename originalFilename compilerArgs : String)
    (s : DbTrace) : DbTrace :=
  let s1 : DbTrace :=
    { s with events := s.events ++ [Event.parseEv contentsFilename originalFilename] }
  match parse contentsFilename originalFilename compilerArgs projRootDirectory with
  | some tunit => traverse (visitor tunit.spelling) tunit.cursor s1
  | none => s1

/-- `__run_on_single_file(id, args)` (clang_indexer.py lines 46-59).  The
connection is opened at `os.path.join(self.proj_root_directory,
self.indexer_db_name)` — the instance attribute set by the directory
operation, not this request's `args[0]`; `os.path.join(None, ...)` raises
`TypeError`.  Indexing and the commit happen only when
`contents_filename == original_filename`; the callback runs in every
non-raising case.  `disk` is the durable content of the store file the
connection opens onto. -/
def runOnSingleFile (selfProjRootDirectory : Option String)
    (disk : List SymbolRow) (parse : ParseFun) (hasCallback : Bool)
    (opId : Int) (args : List String) : Except PyError DbTrace :=
  let projRootDirectory := args.getD 0 ""
  let contentsFilename := args.getD 1 ""
  let originalFilename := args.getD 2 ""
  let compilerArgs := args.getD 3 ""
  match selfProjRootDirectory with
  | none => Except.error PyError.typeError
  | some selfRoot =>
      let s0 : DbTrace :=
        { conn := { committed := disk, pending := [] },
          events := [Event.connectEv (osPathJoin selfRoot indexerDbName)] }
      let s1 : DbTrace :=
        if contentsFilename = originalFilename then
          let s := indexSingleFile parse projRootDirectory contentsFilename
            originalFilename compilerArgs s0
          { conn := dbCommit s.conn, events := s.events ++ [Event.commitEv] }
        else s0
      Except.ok
        { s1 with
          events := s1.events ++
            (if hasCallback then [Event.callbackEv opId args] else []) }

/-- `run_on_directory_impl(proj_root_directory, compiler_args,
filename_list)` (clang_indexer.py lines 253-257), the per-worker body: open
a fresh connection at `self.proj_root_directory`, then index every truthy
entry of the slice in order.  No commit appears anywhere in the worker. -/
def runOnDirectoryImpl (selfProjRootDirectory : String)
    (disk : List SymbolRow) (parse : ParseFun)
    (projRootDirectory compilerArgs : String)
    (filenameList : List (Option String)) : DbTrace :=
  let s0 : DbTrace :=
    { conn := { committed := disk, pending := [] },
      events := [Event.connectEv (osPathJoin selfProjRootDirectory indexerDbName)] }
  filenameList.foldl
    (fun s filename =>
      match filename with
      | some f =>
          if f = "" then s
          else indexSingleFile parse projRootDirectory f f compilerArgs s
      | none => s)
    s0

/-- The rows seeded into `symbol_type` (clang_indexer.py line 117). -/
def symbolTypes : List (Nat × String) :=
  [(1, "function"), (2, "variable"), (3, "user_defined_type"), (4, "macro")]

/-- `__run_on_directory(id, args)` (clang_indexer.py lines 61-148), as the
orchestrator's own effect trace.  `storeExists` is
`os.path.exists(os.path.join(args[0], 'indexer.db'))`; `cppFileList` is the
result of the `os.walk` extension filter; each worker process launch is a
spawn event carrying its slice (the workers' own effects are
`runOnDirectoryImpl`).  When the store already exists the handler only
logs; the callback runs in both branches. -/
def runOnDirectory (storeExists : Bool) (cppFileList : List String)
    (cpuCount : Nat) (hasCallback : Bool) (opId : Int) (args : List String) :
    List Event :=
  let projRootDirectory := args.getD 0 ""
  let dbPath := osPathJoin projRootDirectory indexerDbName
  Event.connectEv dbPath ::
    (if !storeExists then
      [Event.logEv, Event.connectEv dbPath,
       Event.createTableEv "symbol_type", Event.createTableEv "symbol"]
      ++ symbolTypes.map (fun st => Event.writeTypeEv st.fst st.snd)
      ++ (sliceIt cppFileList (cppFileList.length / cpuCount)).map Event.spawnEv
      ++ (sliceIt cppFileList (cppFileList.length / cpuCount)).map (fun _ => Event.joinEv)
      ++ [Event.commitEv, Event.logEv]
    else [Event.logEv])
    ++ (if hasCallback then [Event.callbackEv opId args] else [])

/-- The four-way kind dispatch of `__find_all_references` (clang_indexer.py
lines 189-198): each recognized category runs
`SELECT * FROM symbol WHERE usr=?`; an unrecognized tag leaves
`query_result = None`. -/
def findAllReferencesQuery (astNodeId : ASTNodeId) (usr : String)
    (table : List SymbolRow) : Option (List SymbolRow) :=
  if astNodeId ∈ [ASTNodeId.FunctionId, ASTNodeId.MethodId] then
    some (table.filter (fun r => r.usr = usr))
  else if astNodeId ∈ [ASTNodeId.ClassId, ASTNodeId.StructId,
      ASTNodeId.EnumId, ASTNodeId.EnumValueId, ASTNodeId.UnionId,
      ASTNodeId.TypedefId] then
    some (table.filter (fun r => r.usr = usr))
  else if astNodeId ∈ [ASTNodeId.LocalVariableId,
      ASTNodeId.FunctionParameterId, ASTNodeId.FieldId] then
    some (table.filter (fun r => r.usr = usr))
  else if astNodeId ∈ [ASTNodeId.MacroDefinitionId,
      ASTNodeId.MacroInstantiationId] then
    some (table.filter (fun r => r.usr = usr))
  else
    none

/-- `__find_all_references` (clang_indexer.py lines 179-210), from the point
where the parser has (or has not) mapped the request position to a cursor:
the queried identity is `symbolUsr`, the kind dispatch selects the query,
and the rows' first four columns are accumulated.  A missing unit or cursor,
or a `None` query result, yields the empty reference list. -/
def findAllReferences (table : List SymbolRow) (cursor : Option ASTNode) :
    List (String × String × Nat × Nat) :=
  match cursor with
  | none => []
  | some c =>
      let usr := symbolUsr c.referencedUsr c.ownUsr
      match findAllReferencesQuery c.kind usr table with
      | some rows => rows.map (fun r => (r.filename, r.usr, r.line, r.column))
      | none => []

/-- The handlers reachable from the dispatch table `self.op`
(clang_indexer.py lines 30-37), plus the default of `dict.get`. -/
inductive OpHandler where
  | runOnSingleFileOp
  | runOnDirectoryOp
  | dropSingleFileOp
  | dropAllOp
  | goToDefinitionOp
  | findAllReferencesOp
  | unknownOp
deriving DecidableEq, Repr

/-- `self.op.get(int(args[0]), self.__unknown_op)` (clang_indexer.py lines
30-37 and 41): the six registered codes, every other integer falling to the
default. -/
def opTable (code : Int) : OpHandler :=
  if code = 0x0 then OpHandler.runOnSingleFileOp
  else if code = 0x1 then OpHandler.runOnDirectoryOp
  else if code = 0x2 then OpHandler.dropSingleFileOp
  else if code = 0x3 then OpHandler.dropAllOp
  else if code = 0x10 then OpHandler.goToDefinitionOp
  else if code = 0x11 then OpHandler.findAllReferencesOp
  else OpHandler.unknownOp

/-- The registered operation codes. -/
def knownOpCodes : List Int := [0x0, 0x1, 0x2, 0x3, 0x10, 0x11]

/-- `__unknown_op(id, args)` (clang_indexer.py lines 43-44): one error log
and nothing else — no store access, no callback. -/
def unknownOpRun (opId : Int) (args : List String) : List Event :=
  [Event.logEv]

/-! ## Lemmas about the slice partition -/

theorem sliceIt_flatten (m : Nat) (l : List α) :
    ((sliceIt l (m + 1)).flatten).filterMap id = l := by
  match l with
  | [] => simp [sliceIt]
  | a :: l' =>
    have ih := sliceIt_flatten m ((a :: l').drop (m + 1))
    simp only [sliceIt, List.flatten_cons, List.filterMap_append]
    rw [ih]
    simp
    rw [← List.map_take, List.filterMap_map]
    simp
termination_by l.length
decreasing_by
  simp
  omega

theorem sliceIt_chunk_length (m : Nat) (l : List α) :
    ∀ s ∈ sliceIt l (m + 1), s.length = m + 1 := by
  match l with
  | [] => simp [sliceIt]
  | a :: l' =>
    have ih := sliceIt_chunk_length m ((a :: l').drop (m + 1))
    simp only [sliceIt, List.mem_cons]
    rintro s (rfl | hs)
    · simp
      omega
    · exact ih s hs
termination_by l.length
decreasing_by
  simp
  omega

/-! ## Store-level helpers -/

/-- Number of rows of `rows` carrying the primary key `k`. -/
def countKey (rows : List SymbolRow) (k : String × String × Nat × Nat) : Nat :=
  rows.countP (fun r => rowKey r = k)

theorem countKey_append (l1 l2 : List SymbolRow) (k : String × String × Nat × Nat) :
    countKey (l1 ++ l2) k = countKey l1 k + countKey l2 k := by
  simp [countKey, List.countP_append]

theorem hasKey_iff_countKey_pos (rows : List SymbolRow) (r : SymbolRow) :
    rows.any (fun q => rowKey q = rowKey r) = true ↔ 0 < countKey rows (rowKey r) := by
  simp [countKey, List.any_eq_true, List.countP_pos_iff]

/-- The four-way disjunction of §4.4's kind categories: function/method,
user-defined type, variable/parameter/field, macro. -/
def inReferenceCategories (astNodeId : ASTNodeId) : Prop :=
  astNodeId ∈ [ASTNodeId.FunctionId, ASTNodeId.MethodId] ∨
  astNodeId ∈ [ASTNodeId.ClassId, ASTNodeId.StructId, ASTNodeId.EnumId,
    ASTNodeId.EnumValueId, ASTNodeId.UnionId, ASTNodeId.TypedefId] ∨
  astNodeId ∈ [ASTNodeId.LocalVariableId, ASTNodeId.FunctionParameterId,
    ASTNodeId.FieldId] ∨
  astNodeId ∈ [ASTNodeId.MacroDefinitionId, ASTNodeId.MacroInstantiationId]

instance (astNodeId : ASTNodeId) : Decidable (inReferenceCategories astNodeId) := by
  unfold inReferenceCategories
  infer_instance

theorem findAllReferencesQuery_eq (astNodeId : ASTNodeId) (usr : String)
    (table : List SymbolRow) :
    findAllReferencesQuery astNodeId usr table
      = some (table.filter (fun r => r.usr = usr)) := by
  cases astNodeId <;> rfl

/-! ## Lemmas about the visitor and the traversal -/

theorem tryInsertTr_rows (s : DbTrace) (row : SymbolRow) :
    ∀ r ∈ (tryInsertTr s row).conn.allRows, r ∈ s.conn.allRows ∨ r = row := by
  intro r hr
  unfold tryInsertTr dbInsertSymbol at hr
  by_cases hc : s.conn.allRows.any (fun q => rowKey q = rowKey row) = true
  · rw [if_pos hc] at hr
    exact Or.inl hr
  · rw [if_neg hc] at hr
    simp only [DbConn.allRows, List.mem_append] at hr ⊢
    rcases hr with h | h | h
    · exact Or.inl (Or.inl h)
    · exact Or.inl (Or.inr h)
    · exact Or.inr (List.mem_singleton.1 h)

theorem tryInsertTr_hasKey (s : DbTrace) (row : SymbolRow) :
    (tryInsertTr s row).conn.allRows.any (fun q => rowKey q = rowKey row) = true := by
  unfold tryInsertTr dbInsertSymbol
  by_cases hc : s.conn.allRows.any (fun q => rowKey q = rowKey row) = true
  · rw [if_pos hc]
    exact hc
  · rw [if_neg hc]
    simp [DbConn.allRows, List.any_eq_true]

/-- A node outside the unit's primary file (or with a null location file)
is skipped: no state change, continue to the next sibling. -/
theorem visitor_not_in_file (sp : String) (n : ASTNode) (s : DbTrace)
    (hf : n.locationFile ≠ some sp) :
    visitor sp n s = (ChildVisitResult.CONTINUE, s) := by
  simp [visitor, hf]

/-- A node in the unit's primary file lands in exactly one storage bucket:
the visitor's state update is the guarded insert of the row
`(sp, symbolUsr, line, column, bucket)`. -/
theorem visitor_in_file (sp : String) (n : ASTNode) (s : DbTrace)
    (hf : n.locationFile = some sp) :
    ∃ t, visitor sp n s =
      (ChildVisitResult.RECURSE,
       tryInsertTr s ⟨sp, symbolUsr n.referencedUsr n.ownUsr, n.line, n.column, t⟩) := by
  cases hk : n.kind
  case FunctionId => exact ⟨1, by simp [visitor, hf, hk]⟩
  case MethodId => exact ⟨1, by simp [visitor, hf, hk]⟩
  case ClassId => exact ⟨3, by simp [visitor, hf, hk]⟩
  case StructId => exact ⟨3, by simp [visitor, hf, hk]⟩
  case EnumId => exact ⟨3, by simp [visitor, hf, hk]⟩
  case EnumValueId => exact ⟨3, by simp [visitor, hf, hk]⟩
  case UnionId => exact ⟨3, by simp [visitor, hf, hk]⟩
  case TypedefId => exact ⟨3, by simp [visitor, hf, hk]⟩
  case LocalVariableId => exact ⟨2, by simp [visitor, hf, hk]⟩
  case FunctionParameterId => exact ⟨2, by simp [visitor, hf, hk]⟩
  case FieldId => exact ⟨2, by simp [visitor, hf, hk]⟩
  case MacroDefinitionId => exact ⟨4, by simp [visitor, hf, hk]⟩
  case MacroInstantiationId => exact ⟨4, by simp [visitor, hf, hk]⟩

/-- Any row visible after one visitor step was either already visible or is
the visited node's own record (primary filename, resolved identity). -/
theorem visitor_rows (sp : String) (n : ASTNode) (s : DbTrace) :
    ∀ r ∈ (visitor sp n s).snd.conn.allRows,
      r ∈ s.conn.allRows ∨
        (r.filename = sp ∧ r.usr = symbolUsr n.referencedUsr n.ownUsr) := by
  intro r hr
  by_cases hf : n.locationFile = some sp
  · obtain ⟨t, ht⟩ := visitor_in_file sp n s hf
    rw [ht] at hr
    rcases tryInsertTr_rows _ _ r hr with h | h
    · exact Or.inl h
    · subst h
      exact Or.inr ⟨rfl, rfl⟩
  · rw [visitor_not_in_file sp n s hf] at hr
    exact Or.inl hr

/-- Any row visible after traversing a sibling list was either already
visible or carries the unit's primary filename. -/
theorem traverseChildren_rows (sp : String) (ns : List ASTNode) (s : DbTrace) :
    ∀ r ∈ (traverseChildren (visitor sp) ns s).conn.allRows,
      r ∈ s.conn.allRows ∨ r.filename = sp := by
  match ns with
  | [] =>
    intro r hr
    simp only [traverseChildren] at hr
    exact Or.inl hr
  | n :: rest =>
    intro r hr
    simp only [traverseChildren] at hr
    by_cases hf : n.locationFile = some sp
    · obtain ⟨t, ht⟩ := visitor_in_file sp n s hf
      rw [ht] at hr
      simp only at hr
      rcases traverseChildren_rows sp rest _ r hr with h | h
      · rcases traverseChildren_rows sp n.children _ r h with h2 | h2
        · rcases tryInsertTr_rows _ _ r h2 with h3 | h3
          · exact Or.inl h3
          · subst h3
            exact Or.inr rfl
        · exact Or.inr h2
      · exact Or.inr h
    · rw [visitor_not_in_file sp n s hf] at hr
      simp only at hr
      rcases traverseChildren_rows sp rest s r hr with h | h
      · exact Or.inl h
      · exact Or.inr h
termination_by sizeOf ns
decreasing_by
  all_goals
    first
      | (simp; omega)
      | (have h := ASTNode.sizeOf_children_lt n; simp; omega)
      | simp

/-! ## Claim theorems -/

/-- C3: an insert whose primary key `(filename, usr, line, column)` is
already present raises sqlite's `IntegrityError`, which the visitor's
`try`/`except` absorbs into a no-op — `tryInsertSymbol` is total, so no
error passes the insert layer — and inserting the same row twice into a
well-formed store leaves exactly one row with that key. -/
theorem c3_insert_idempotent (c : DbConn) (r : SymbolRow)
    (hwf : countKey c.allRows (rowKey r) ≤ 1) :
    (c.allRows.any (fun q => rowKey q = rowKey r) = true →
      dbInsertSymbol c r = Except.error SqliteError.integrityError ∧
      tryInsertSymbol c r = c) ∧
    countKey (tryInsertSymbol (tryInsertSymbol c r) r).allRows (rowKey r) = 1 := by
  by_cases h : c.allRows.any (fun q => rowKey q = rowKey r) = true
  · have hpos := (hasKey_iff_countKey_pos c.allRows r).1 h
    have herr : dbInsertSymbol c r = Except.error SqliteError.integrityError := by
      simp [dbInsertSymbol, h]
    have hnoop : tryInsertSymbol c r = c := by
      simp [tryInsertSymbol, herr]
    refine ⟨fun _ => ⟨herr, hnoop⟩, ?_⟩
    rw [hnoop, hnoop]
    omega
  · have hzero : countKey c.allRows (rowKey r) = 0 := by
      by_contra hc
      exact h ((hasKey_iff_countKey_pos c.allRows r).2 (by omega))
    have hok : tryInsertSymbol c r = { c with pending := c.pending ++ [r] } := by
      simp [tryInsertSymbol, dbInsertSymbol, h]
    have hmem : ({ c with pending := c.pending ++ [r] } : DbConn).allRows.any
        (fun q => rowKey q = rowKey r) = true := by
      simp [DbConn.allRows, List.any_eq_true]
    have hnoop2 : tryInsertSymbol { c with pending := c.pending ++ [r] } r
        = { c with pending := c.pending ++ [r] } := by
      simp [tryInsertSymbol, dbInsertSymbol, hmem]
    refine ⟨fun hcontr => absurd hcontr h, ?_⟩
    rw [hok, hnoop2]
    have hsplit : countKey ({ c with pending := c.pending ++ [r] } : DbConn).allRows (rowKey r)
        = countKey c.committed (rowKey r) + countKey c.pending (rowKey r)
          + countKey [r] (rowKey r) := by
      show countKey (c.committed ++ (c.pending ++ [r])) (rowKey r) = _
      rw [countKey_append, countKey_append]
      ring
    have hcp : countKey c.committed (rowKey r) + countKey c.pending (rowKey r) = 0 := by
      have : countKey c.allRows (rowKey r)
          = countKey c.committed (rowKey r) + countKey c.pending (rowKey r) := by
        show countKey (c.committed ++ c.pending) (rowKey r) = _
        rw [countKey_append]
      omega
    have hone : countKey [r] (rowKey r) = 1 := by
      simp [countKey]
    omega

/-- C3, witness: the idempotent-insert theorem at a concrete one-row
insert into the empty store — the double insert leaves exactly one row and
the collision on the second insert is absorbed. -/
theorem c3_insert_idempotent_witness :
    countKey (tryInsertSymbol (tryInsertSymbol { committed := [], pending := [] }
        ⟨"a.cpp", "c:@F@foo", 1, 5, 1⟩) ⟨"a.cpp", "c:@F@foo", 1, 5, 1⟩).allRows
      (rowKey ⟨"a.cpp", "c:@F@foo", 1, 5, 1⟩) = 1 :=
  (c3_insert_idempotent { committed := [], pending := [] }
    ⟨"a.cpp", "c:@F@foo", 1, 5, 1⟩ (by decide)).2

/-- C5: during the single-unit walk, a visited node whose source file is
not the unit's primary file (including a null location file) causes no
store write and no descent into its children (continue to the next
sibling); a node located in the primary file yields recurse-into-children
and leaves its record — keyed `(spelling, identity, line, column)` —
present in the store; and every row the full traversal adds beyond the
initial state carries the unit's primary filename. -/
theorem c5_tu_origin_filter (sp : String) (n : ASTNode) (s : DbTrace) :
    (n.locationFile ≠ some sp →
      visitor sp n s = (ChildVisitResult.CONTINUE, s)) ∧
    (n.locationFile = some sp →
      (visitor sp n s).fst = ChildVisitResult.RECURSE ∧
      (visitor sp n s).snd.conn.allRows.any
        (fun q => rowKey q
          = (sp, symbolUsr n.referencedUsr n.ownUsr, n.line, n.column)) = true) ∧
    (∀ r ∈ (traverse (visitor sp) n s).conn.allRows,
      r ∈ s.conn.allRows ∨ r.filename = sp) := by
  refine ⟨visitor_not_in_file sp n s, fun hf => ?_, ?_⟩
  · obtain ⟨t, ht⟩ := visitor_in_file sp n s hf
    rw [ht]
    refine ⟨rfl, ?_⟩
    have h := tryInsertTr_hasKey s
      ⟨sp, symbolUsr n.referencedUsr n.ownUsr, n.line, n.column, t⟩
    simpa [rowKey] using h
  · intro r hr
    exact traverseChildren_rows sp n.children s r hr

/-- C5, witness: the origin-filter theorem at a unit `a.cpp`, one node in
`a.cpp` (recursed into) and one node from an included `b.h` (skipped with
no state change). -/
theorem c5_tu_origin_filter_witness :
    visitor "a.cpp" (ASTNode.mk (some "b.h") none "v" ASTNodeId.FunctionId 3 4 [])
        { conn := { committed := [], pending := [] }, events := [] }
      = (ChildVisitResult.CONTINUE,
         { conn := { committed := [], pending := [] }, events := [] }) ∧
    (visitor "a.cpp" (ASTNode.mk (some "a.cpp") none "u" ASTNodeId.FunctionId 1 2 [])
        { conn := { committed := [], pending := [] }, events := [] }).fst
      = ChildVisitResult.RECURSE :=
  ⟨(c5_tu_origin_filter "a.cpp"
      (ASTNode.mk (some "b.h") none "v" ASTNodeId.FunctionId 3 4 [])
      { conn := { committed := [], pending := [] }, events := [] }).1
      (by simp [ASTNode.locationFile]),
   ((c5_tu_origin_filter "a.cpp"
      (ASTNode.mk (some "a.cpp") none "u" ASTNodeId.FunctionId 1 2 [])
      { conn := { committed := [], pending := [] }, events := [] }).2.1 rfl).1⟩

/-- C6: both at line 216 (what the visitor stores) and at line 187 (what
`__find_all_references` queries), the identity is the referenced
declaration's USR when the referenced link is non-null and the node's own
USR otherwise; every row the visitor adds and every tuple the query
returns carries that resolved identity, and a declaration together with a
use-site referencing it resolve to one identity key. -/
theorem c6_reference_identity (sp : String) (n nd nu cursor : ASTNode)
    (s : DbTrace) (table : List SymbolRow) :
    (∀ u, n.referencedUsr = some u → symbolUsr n.referencedUsr n.ownUsr = u) ∧
    (n.referencedUsr = none → symbolUsr n.referencedUsr n.ownUsr = n.ownUsr) ∧
    (∀ r ∈ (visitor sp n s).snd.conn.allRows,
      r ∈ s.conn.allRows ∨ r.usr = symbolUsr n.referencedUsr n.ownUsr) ∧
    (∀ t ∈ findAllReferences table (some cursor),
      t.snd.fst = symbolUsr cursor.referencedUsr cursor.ownUsr) ∧
    (nd.referencedUsr = none → nu.referencedUsr = some nd.ownUsr →
      symbolUsr nu.referencedUsr nu.ownUsr = symbolUsr nd.referencedUsr nd.ownUsr) := by
  refine ⟨?_, ?_, ?_, ?_, ?_⟩
  · intro u hu
    simp [symbolUsr, hu]
  · intro hn
    simp [symbolUsr, hn]
  · intro r hr
    rcases visitor_rows sp n s r hr with h | h
    · exact Or.inl h
    · exact Or.inr h.2
  · intro t ht
    simp only [findAllReferences, findAllReferencesQuery_eq, List.mem_map,
      List.mem_filter] at ht
    obtain ⟨r, ⟨hmem, husr⟩, rfl⟩ := ht
    simpa using husr
  · intro h1 h2
    simp [symbolUsr, h1, h2]

/-- C6, witness: the identity theorem at a concrete reference node (its
referenced declaration's USR wins) and a concrete declaration node (its
own USR is used). -/
theorem c6_reference_identity_witness :
    symbolUsr (some "c:@F@foo") "own" = "c:@F@foo" ∧
    symbolUsr none "own" = "own" :=
  ⟨(c6_reference_identity "a.cpp"
      (ASTNode.mk none (some "c:@F@foo") "own" ASTNodeId.FunctionId 0 0 [])
      (ASTNode.mk none none "own" ASTNodeId.FunctionId 0 0 [])
      (ASTNode.mk none none "own" ASTNodeId.FunctionId 0 0 [])
      (ASTNode.mk none none "own" ASTNodeId.FunctionId 0 0 [])
      { conn := { committed := [], pending := [] }, events := [] } []).1
      "c:@F@foo" rfl,
   (c6_reference_identity "a.cpp"
      (ASTNode.mk none none "own" ASTNodeId.FunctionId 0 0 [])
      (ASTNode.mk none none "own" ASTNodeId.FunctionId 0 0 [])
      (ASTNode.mk none none "own" ASTNodeId.FunctionId 0 0 [])
      (ASTNode.mk none none "own" ASTNodeId.FunctionId 0 0 [])
      { conn := { committed := [], pending := [] }, events := [] } []).2.1 rfl⟩

/-- C8: dispatching an operation code outside the registered table
(clang_indexer.py line 41) resolves to `__unknown_op`, whose whole effect
is one log line: no store write, no table creation, no commit, and no
callback invocation. -/
theorem c8_unknown_op_silent (code : Int) (args : List String)
    (h : code ∉ knownOpCodes) :
    opTable code = OpHandler.unknownOp ∧
    unknownOpRun code args = [Event.logEv] ∧
    (∀ r, Event.writeEv r ∉ unknownOpRun code args) ∧
    (∀ t n, Event.writeTypeEv t n ∉ unknownOpRun code args) ∧
    Event.commitEv ∉ unknownOpRun code args ∧
    (∀ i a, Event.callbackEv i a ∉ unknownOpRun code args) := by
  simp only [knownOpCodes, List.mem_cons, List.not_mem_nil, or_false, not_or] at h
  obtain ⟨h0, h1, h2, h3, h16, h17⟩ := h
  refine ⟨?_, rfl, ?_, ?_, ?_, ?_⟩
  · simp [opTable, h0, h1, h2, h3, h16, h17]
  · intro r
    simp [unknownOpRun]
  · intro t n
    simp [unknownOpRun]
  · simp [unknownOpRun]
  · intro i a
    simp [unknownOpRun]

/-- C8, witness: the silent-no-op theorem at the concrete unregistered
code `7`. -/
theorem c8_unknown_op_silent_witness :
    opTable 7 = OpHandler.unknownOp ∧ unknownOpRun 7 [] = [Event.logEv] :=
  ⟨(c8_unknown_op_silent 7 [] (by decide)).1,
   (c8_unknown_op_silent 7 [] (by decide)).2.1⟩

/-- C9: for every cursor kind inside any of the four dispatch categories of
`__find_all_references`, the executed lookup is the same
`SELECT * FROM symbol WHERE usr=?` by identity, so the query result does
not depend on which branch runs. -/
theorem c9_kind_dispatch_degenerate (astNodeId1 astNodeId2 : ASTNodeId)
    (usr : String) (table : List SymbolRow)
    (h1 : inReferenceCategories astNodeId1)
    (h2 : inReferenceCategories astNodeId2) :
    findAllReferencesQuery astNodeId1 usr table
      = some (table.filter (fun r => r.usr = usr)) ∧
    findAllReferencesQuery astNodeId1 usr table
      = findAllReferencesQuery astNodeId2 usr table := by
  refine ⟨findAllReferencesQuery_eq astNodeId1 usr table, ?_⟩
  rw [findAllReferencesQuery_eq, findAllReferencesQuery_eq]

/-- C9, witness: the branch-independence theorem at a function cursor and a
macro cursor over a concrete one-row table. -/
theorem c9_kind_dispatch_degenerate_witness :
    findAllReferencesQuery ASTNodeId.FunctionId "u" [⟨"a.cpp", "u", 1, 1, 1⟩]
      = findAllReferencesQuery ASTNodeId.MacroDefinitionId "u"
        [⟨"a.cpp", "u", 1, 1, 1⟩] :=
  (c9_kind_dispatch_degenerate ASTNodeId.FunctionId ASTNodeId.MacroDefinitionId
    "u" [⟨"a.cpp", "u", 1, 1, 1⟩] (by decide) (by decide)).2

/-- C4: when the store file already exists at the project root, the whole
directory-indexing handler emits exactly an open of the store path, the
"already indexed" log line, and the completion callback — in particular no
parse, no table creation, no row write, no worker spawn, and no commit —
whatever the store's content, the discovered file list, or the CPU count. -/
theorem c4_directory_short_circuit (cppFileList : List String) (cpuCount : Nat)
    (hasCallback : Bool) (args : List String) :
    runOnDirectory true cppFileList cpuCount hasCallback 1 args
      = Event.connectEv (osPathJoin (args.getD 0 "") indexerDbName)
        :: Event.logEv
        :: (if hasCallback then [Event.callbackEv 1 args] else []) ∧
    Event.callbackEv 1 args ∈ runOnDirectory true cppFileList cpuCount true 1 args := by
  constructor
  · simp [runOnDirectory]
  · simp [runOnDirectory]

/-- C1: the worker body `run_on_directory_impl` never commits — the commit
inside `__index_single_file` (line 249) is commented out and no other
commit exists in the worker — so a worker that indexed a file reaches the
join point with its row still pending and nothing durable.  Evaluated at a
one-file slice whose file parses to a single function declaration. -/
theorem c1_worker_uncommitted :
    (runOnDirectoryImpl "/proj" []
        (fun _ _ _ _ => some
          { spelling := "a.cpp",
            cursor := ASTNode.mk none none "" ASTNodeId.FunctionId 0 0
              [ASTNode.mk (some "a.cpp") none "c:@F@foo" ASTNodeId.FunctionId 1 5 []] })
        "/proj" "" [some "a.cpp"]).conn.pending
      = [⟨"a.cpp", "c:@F@foo", 1, 5, 1⟩] ∧
    (runOnDirectoryImpl "/proj" []
        (fun _ _ _ _ => some
          { spelling := "a.cpp",
            cursor := ASTNode.mk none none "" ASTNodeId.FunctionId 0 0
              [ASTNode.mk (some "a.cpp") none "c:@F@foo" ASTNodeId.FunctionId 1 5 []] })
        "/proj" "" [some "a.cpp"]).conn.committed = [] ∧
    Event.commitEv ∉
      (runOnDirectoryImpl "/proj" []
        (fun _ _ _ _ => some
          { spelling := "a.cpp",
            cursor := ASTNode.mk none none "" ASTNodeId.FunctionId 0 0
              [ASTNode.mk (some "a.cpp") none "c:@F@foo" ASTNodeId.FunctionId 1 5 []] })
        "/proj" "" [some "a.cpp"]).events := by
  refine ⟨?_, ?_, ?_⟩ <;>
    simp [runOnDirectoryImpl, indexSingleFile, traverse, traverseChildren,
      visitor, ASTNode.locationFile, ASTNode.children, ASTNode.kind,
      ASTNode.referencedUsr, ASTNode.ownUsr, ASTNode.line, ASTNode.column,
      symbolUsr, tryInsertTr, dbInsertSymbol, DbConn.allRows, rowKey,
      osPathJoin, indexerDbName]

/-- C7: `__run_on_single_file` opens the store at
`os.path.join(self.proj_root_directory, 'indexer.db')` — the root left
behind by the last directory operation — not at this request's own
`args[0]`: with `self.proj_root_directory = "/p1"` a request for project
root `/p2` connects to `/p1/indexer.db` and never touches
`/p2/indexer.db`. -/
theorem c7_store_path_from_directory_root :
    runOnSingleFile (some "/p1") [] (fun _ _ _ _ => none) true 0
        ["/p2", "a.cpp", "a.cpp", ""]
      = Except.ok
          { conn := { committed := [], pending := [] },
            events := [Event.connectEv "/p1/indexer.db",
                       Event.parseEv "a.cpp" "a.cpp",
                       Event.commitEv,
                       Event.callbackEv 0 ["/p2", "a.cpp", "a.cpp", ""]] } ∧
    osPathJoin "/p2" indexerDbName = "/p2/indexer.db" ∧
    ("/p1/indexer.db" : String) ≠ "/p2/indexer.db" := by
  refine ⟨?_, by decide, by decide⟩
  simp [runOnSingleFile, indexSingleFile, dbCommit, osPathJoin, indexerDbName]

/-- C10: an index-single-file request whose contents path differs from the
original path performs no parse, no store write, and no commit — the
connection state stays exactly as opened — yet the completion callback
still fires with the operation code and the request arguments, exactly the
event a successful indexing run ends with. -/
theorem c10_contents_mismatch_silent (root : String) (disk : List SymbolRow)
    (parse : ParseFun) (args : List String)
    (h : args.getD 1 "" ≠ args.getD 2 "") :
    runOnSingleFile (some root) disk parse true 0 args
      = Except.ok
          { conn := { committed := disk, pending := [] },
            events := [Event.connectEv (osPathJoin root indexerDbName),
                       Event.callbackEv 0 args] } ∧
    (∀ args2 s2, args2.getD 1 "" = args2.getD 2 "" →
      runOnSingleFile (some root) disk parse true 0 args2 = Except.ok s2 →
      s2.events.getLast? = some (Event.callbackEv 0 args2)) := by
  constructor
  · simp only [runOnSingleFile]
    rw [if_neg h]
    simp
  · intro args2 s2 heq hrun
    simp only [runOnSingleFile] at hrun
    rw [if_pos heq] at hrun
    simp only [Except.ok.injEq] at hrun
    subst hrun
    simp

/-- C10, witness: the silent-skip theorem at a concrete request whose
contents path `tmp.cpp` differs from its display path `a.cpp`. -/
theorem c10_contents_mismatch_silent_witness :
    runOnSingleFile (some "/p") [] (fun _ _ _ _ => none) true 0
        ["/p", "tmp.cpp", "a.cpp", ""]
      = Except.ok
          { conn := { committed := [], pending := [] },
            events := [Event.connectEv (osPathJoin "/p" indexerDbName),
                       Event.callbackEv 0 ["/p", "tmp.cpp", "a.cpp", ""]] } :=
  (c10_contents_mismatch_silent "/p" [] (fun _ _ _ _ => none)
    ["/p", "tmp.cpp", "a.cpp", ""] (by decide)).1


/-- C2, counterexample.  The claim states that for every file list and
worker count `N ≥ 1` the partition used at clang_indexer.py line 129 —
`slice_it(cpp_file_list, len(cpp_file_list)/self.cpu_count)` — yields `N`
slices whose union is the original list with nothing dropped.  With one
file and two processing units the chunk size is `1 / 2 = 0`, the partition
is empty, and the only file is dropped; moreover with five files and two
units the partition has three slices, not two. -/
theorem c2_slice_counterexample :
    sliceIt (["a"] : List String) ((["a"] : List String).length / 2) = [] ∧
    (sliceIt (["a"] : List String)
        ((["a"] : List String).length / 2)).flatten.filterMap id ≠ ["a"] ∧
    (sliceIt (["a", "b", "c", "d", "e"] : List String)
        ((["a", "b", "c", "d", "e"] : List String).length / 2)).length ≠ 2 := by
  norm_num [sliceIt]

/-- C2, amended: for every file list holding at least as many files as
there are processing units (so the chunk size `len / cpu_count` is at least
one), the partition of clang_indexer.py line 129 consists of contiguous
equal-size chunks (the last padded with the `None` pad value) whose
concatenation, with the padding stripped, is exactly the original list in
order — so no file is duplicated and none is dropped; the number of chunks
is `⌈len / (len / cpu_count)⌉`, which can exceed `cpu_count`.  When the
list is shorter than the processing-unit count the partition is empty and
every file is dropped. -/
theorem c2_slice_partition (l : List String) (cpuCount : Nat)
    (h1 : 1 ≤ cpuCount) (h2 : cpuCount ≤ l.length) :
    (sliceIt l (l.length / cpuCount)).flatten.filterMap id = l ∧
    ∀ s ∈ sliceIt l (l.length / cpuCount), s.length = l.length / cpuCount := by
  have hn : 1 ≤ l.length / cpuCount := (Nat.one_le_div_iff (by omega)).2 h2
  obtain ⟨m, hm⟩ : ∃ m, l.length / cpuCount = m + 1 :=
    ⟨l.length / cpuCount - 1, by omega⟩
  rw [hm]
  exact ⟨sliceIt_flatten m l, sliceIt_chunk_length m l⟩

/-- C2, witness: the amended partition theorem at the concrete file list
`["a", "b", "c"]` with one processing unit. -/
theorem c2_slice_partition_witness :
    (sliceIt (["a", "b", "c"] : List String)
        ((["a", "b", "c"] : List String).length / 1)).flatten.filterMap id
      = ["a", "b", "c"] :=
  (c2_slice_partition ["a", "b", "c"] 1 (by norm_num) (by norm_num)).1

end Yavide
